import Mathlib

/-!
# Verification of the adp-mysql streaming query layer

Shallow embedding of the core of the `@sabl/adp-mysql` repository:

* the JS value model used for query parameters and row packets,
* the parameter flattening loop of `openRows` / `execStmt` (src/src/mysql-util.ts),
* the `MySQLQuery` event-to-cursor state machine (src/src/mysql-util.ts),
* the pool-connection helpers `getPoolConnection_Cancelable`, `usePoolConnection`,
  `closeConnection` (src/src/mysql-util.ts),
* `MySQLPool.close` (src/src/mysql-pool.ts),
* `MySQLTxn.begin` (src/unnamed/part_002),
* the `ObjectRow` row view (src/unnamed/part_001).

Stateful TypeScript methods become explicit state-passing functions; the wire
side effects (pause/resume/release/…) are reified as an action list so that
theorems can count the calls a method performs.
-/

namespace AdpMySQL

/-! ## JavaScript values

Query parameters and row packets are plain JS values.  We model the fragment
needed by the code under verification: `undefined`, `null`, booleans, numbers,
strings and plain objects (association lists of own enumerable properties). -/

inductive JSVal where
  | undefined : JSVal
  | null : JSVal
  | boolean : Bool → JSVal
  | number : Int → JSVal
  | string : String → JSVal
  | object : List (String × JSVal) → JSVal

/-- Boolean equality on `JSVal` (structural equality of the model). -/
def JSVal.beq : JSVal → JSVal → Bool
  | .undefined, .undefined => true
  | .null, .null => true
  | .boolean a, .boolean b => a == b
  | .number a, .number b => a == b
  | .string a, .string b => a == b
  | .object ps, .object qs => beqProps ps qs
  | _, _ => false
where
  /-- Pointwise equality of property lists. -/
  beqProps : List (String × JSVal) → List (String × JSVal) → Bool
  | [], [] => true
  | (k, v) :: ps, (l, w) :: qs => k == l && JSVal.beq v w && beqProps ps qs
  | _, _ => false

instance : BEq JSVal := ⟨JSVal.beq⟩

/-- A JS plain object: own enumerable string-keyed properties. -/
abbrev PlainObject := List (String × JSVal)

/-- Reading property `k` of a plain object: the value of the property, or
`undefined` when the property is absent. -/
def objGet (props : PlainObject) (k : String) : JSVal :=
  match props.lookup k with
  | some v => v
  | none => JSVal.undefined

/-- Errors thrown by the JS runtime itself. -/
inductive JsErr where
  | typeError : JsErr
deriving DecidableEq, Repr

/-- JS property access `v[k]`: throws a `TypeError` on `null`/`undefined`;
yields the property value on objects; yields `undefined` for the properties
the code under verification reads (`name`, `value`) on the other primitives,
which have no such own properties. -/
def JSVal.getProp : JSVal → String → Except JsErr JSVal
  | .undefined, _ => .error .typeError
  | .null, _ => .error .typeError
  | .object ps, k => .ok (objGet ps k)
  | _, _ => .ok .undefined

/-- Is this value `undefined`?  (The JS test `x !== undefined`.) -/
def JSVal.isUndefined : JSVal → Bool
  | .undefined => true
  | _ => false

/-! ## Parameter flattening (`openRows` / `execStmt`, src/src/mysql-util.ts)

```
const inputs = [];
for (const val of params) {
  if ((<NamedParam>val).name !== undefined) {
    inputs.push((<NamedParam>val).value);
  } else {
    inputs.push(val);
  }
}
```
-/

/-- The `inputs` array handed to the driver, built from the parameter list by
the loop above.  Property access on a `null`/`undefined` entry throws. -/
def flattenParams : List JSVal → Except JsErr (List JSVal)
  | [] => Except.ok []
  | val :: rest =>
    match val.getProp "name" with
    | Except.error e => Except.error e
    | Except.ok nm =>
      match (if nm.isUndefined then Except.ok val else val.getProp "value") with
      | Except.error e => Except.error e
      | Except.ok item =>
        match flattenParams rest with
        | Except.error e => Except.error e
        | Except.ok tail => Except.ok (item :: tail)

/-! ## The `MySQLQuery` state machine (src/src/mysql-util.ts)

The driver `Query` handle emits `fields` / `result` / `end` / `error` events;
the caller drives `next()` / `close()`, and a context cancellation invokes
`#cancel`.  Each handler becomes a function `QueryState → QueryState × List Act`
where `Act` reifies wire calls and promise settlements. -/

/-- Backpressure high-water mark (`const highWater = 100`). -/
def highWater : Nat := 100

/-- Backpressure resume threshold (`const resume = 75`). -/
def resume : Nat := 75

/-- Driver error object (`QueryError`): the field the code inspects. -/
structure QErr where
  code : String
deriving DecidableEq, Repr

/-- Driver field packet (`ColumnDefinition`): the adapter reads `name` (and
type metadata through `parseType`, which no claim touches and is omitted). -/
structure ColumnDefinition where
  name : String
deriving DecidableEq, Repr

/-- Decoded column metadata; only the name is relevant to the claims. -/
structure ColumnInfo where
  name : String
deriving DecidableEq, Repr

/-- The map `toColInfo` restricted to the modelled fields. -/
def toColInfo (c : ColumnDefinition) : ColumnInfo := ⟨c.name⟩

/-- A materialized row view (`Row.fromObject(src, cols)`). -/
structure RowV where
  src : PlainObject
  cols : List String

/-- The helper `makeRow` (src/src/mysql-util.ts). -/
def makeRow (src : PlainObject) (cols : List String) : RowV := ⟨src, cols⟩

/-- The mutable private state of a `MySQLQuery`.  The `#waitNext`,
`#waitClose`, `#waitReady` promise handles are modelled by whether a waiter is
pending; settlement is reified as an action.  `columnsInfo` is the source
field `#columns` (renamed: the public getter keeps the name `columns`). -/
structure QueryState where
  keepOpen : Bool
  buf : List PlainObject := []
  row : Option RowV := none
  err : Option QErr := none
  columnsInfo : Option (List ColumnInfo) := none
  fieldNames : Option (List String) := none
  ready : Bool := false
  done : Bool := false
  paused : Bool := false
  isExec : Bool := false
  result : Option PlainObject := none
  waitNext : Bool := false
  waitClose : Bool := false
  waitReady : Bool := false
  canceling : Bool := false

/-- Observable side effects of a handler: wire-connection calls and promise
settlements.  `killQuery` abstracts `cancelQuery` (the sideband
`KILL QUERY <threadId>` issued on a separate pooled connection).
`wireRelease` is a `release()` of the wire connection of THIS query. -/
inductive Act where
  | pause : Act
  | resume : Act
  | wireRelease : Act
  | wireDestroy : Act
  | wireEnd : Act
  | killQuery : Act
  | resolveNext : Bool → Act
  | rejectNext : QErr → Act
  | resolveReady : Option QErr → Act
  | resolveClose : Act
  | rejectClose : QErr → Act
  | emitComplete : Act
  | invalidState : Act
deriving DecidableEq, Repr

/-- Fresh state as built by the `MySQLQuery` constructor. -/
def initState (keepOpen : Bool) : QueryState := { keepOpen := keepOpen }

namespace MySQLQuery

/-- The handler `#resolveReady(err)`: mark ready and settle the `ready()` waiter. -/
def resolveReadyH (s : QueryState) (e : Option QErr) : QueryState × List Act :=
  let s := { s with ready := true }
  if s.waitReady then ({ s with waitReady := false }, [Act.resolveReady e])
  else (s, [])

/-- The handler `#resolveNext(ok)`: settle the pending `next()` waiter. -/
def resolveNextH (s : QueryState) (ok : Bool) : QueryState × List Act :=
  ({ s with waitNext := false }, [Act.resolveNext ok])

/-- The handler `#end()`: terminal transition.  Note the early return: when a `next()`
waiter is pending it is resolved `false` and neither the `close()` waiter nor
the `complete` emission happens in this call. -/
def endEvt (s : QueryState) : QueryState × List Act :=
  let s := { s with done := true }
  if s.waitNext then resolveNextH s false
  else
    let (s, acts) :=
      if s.waitClose then ({ s with waitClose := false }, [Act.resolveClose])
      else (s, [])
    (s, acts ++ [Act.emitComplete])

/-- The handler `#error(err)`: store the error, settle `ready()` with it if still opening;
an `ER_QUERY_INTERRUPTED` while `#canceling` is converted to `#end()`;
otherwise pending `next()` / `close()` waiters are rejected. -/
def errorEvt (s : QueryState) (e : QErr) : QueryState × List Act :=
  let s := { s with err := some e }
  let (s, acts1) := if s.ready then (s, []) else resolveReadyH s (some e)
  if e.code = "ER_QUERY_INTERRUPTED" ∧ s.canceling = true then
    let (s, acts2) := endEvt s
    (s, acts1 ++ acts2)
  else
    let (s, acts2) :=
      if s.waitNext then ({ s with waitNext := false }, [Act.rejectNext e])
      else (s, [])
    let (s, acts3) :=
      if s.waitClose then ({ s with waitClose := false }, [Act.rejectClose e])
      else (s, [])
    (s, acts1 ++ acts2 ++ acts3)

/-- The handler `#onFields(fields)`: `null` marks an exec statement; otherwise record the
column metadata and settle readiness. -/
def onFields (s : QueryState) (fields : Option (List ColumnDefinition)) :
    QueryState × List Act :=
  match fields with
  | none => ({ s with isExec := true }, [])
  | some fs =>
    let s := { s with
      columnsInfo := some (fs.map toColInfo),
      fieldNames := some (fs.map (·.name)) }
    if s.ready then (s, []) else resolveReadyH s none

/-- The handler `#pushRow(row)`: a `result` event.  Discarded while canceling; stores the
exec packet for exec statements; wakes a pending `next()` directly; otherwise
buffers and requests `pause()` at the high-water mark unless already paused. -/
def pushRow (s : QueryState) (row : PlainObject) : QueryState × List Act :=
  if s.canceling then (s, [])
  else if s.isExec then
    let s := { s with result := some row }
    let (s, acts1) := if s.ready then (s, []) else resolveReadyH s none
    let (s, acts2) := if s.waitNext then resolveNextH s false else (s, [])
    (s, acts1 ++ acts2)
  else if s.waitNext then
    if s.buf.isEmpty then
      let s := { s with row := some (makeRow row (s.fieldNames.getD [])) }
      resolveNextH s true
    else (s, [Act.invalidState])
  else
    let s := { s with buf := s.buf ++ [row] }
    if highWater ≤ s.buf.length then
      if s.paused then (s, [])
      else ({ s with paused := true }, [Act.pause])
    else (s, [])

/-- The immediate outcome of a `next()` call. -/
inductive NextRes where
  | rejected : QErr → NextRes
  | resolved : Bool → NextRes
  | pending : NextRes
deriving DecidableEq, Repr

/-- The method `next()`: reject with the stored error first; then drain the buffer
(resuming the wire at the low-water mark); then report end / exec; otherwise
park a waiter. -/
def next (s : QueryState) : QueryState × List Act × NextRes :=
  match s.err with
  | some e => (s, [], NextRes.rejected e)
  | none =>
    match s.buf with
    | r :: rest =>
      let s := { s with
        row := some (makeRow r (s.fieldNames.getD [])), buf := rest }
      if s.paused = true ∧ s.buf.length ≤ resume then
        ({ s with paused := false }, [Act.resume], NextRes.resolved true)
      else (s, [], NextRes.resolved true)
    | [] =>
      if s.done then (s, [], NextRes.resolved false)
      else if s.isExec then (s, [], NextRes.resolved false)
      else ({ s with waitNext := true }, [], NextRes.pending)

end MySQLQuery

/-! ### Connection teardown helpers (src/src/mysql-util.ts) -/

/-- The helper `closeConnection(con, pool?, kill)`: `destroy()` for a hard kill,
`release()` when a pool was supplied, graceful `end()` otherwise. -/
def closeConnection (hasPool : Bool) (kill : Bool) : List Act :=
  if kill then [Act.wireDestroy]
  else if hasPool then [Act.wireRelease]
  else [Act.wireEnd]

namespace MySQLQuery

/-- The handler `#cancel()`: mark canceling; a `keepOpen=false` stream just closes (and,
having a pool, releases) its own wire connection, a `keepOpen=true` stream
issues the sideband `KILL QUERY` (`cancelQuery`, whose own sideband lease is
internal to it and not an action on the connection of this query). -/
def cancel (s : QueryState) : QueryState × List Act :=
  let s := { s with canceling := true }
  if s.keepOpen then (s, [Act.killQuery])
  else (s, closeConnection true false)

/-- Whether `close()` settled its promise without parking a waiter. -/
inductive CloseRes where
  | immediate : CloseRes
  | pendingClose : CloseRes
deriving DecidableEq, Repr

/-- The method `close()`: a no-op once done; otherwise park the `#waitClose` handle, run
`#cancel`, `resume()` a paused wire (the flag is not cleared here, as in the
source), and settle immediately if the stream meanwhile ended.  This models
the execution in which no driver event interleaves with the awaited
`#cancel()` call. -/
def close (s : QueryState) : QueryState × List Act × CloseRes :=
  if s.done then (s, [], CloseRes.immediate)
  else
    let s := { s with waitClose := true }
    let (s, acts1) := cancel s
    let acts2 := if s.paused then [Act.resume] else []
    if s.done then
      ({ s with waitClose := false }, acts1 ++ acts2, CloseRes.immediate)
    else (s, acts1 ++ acts2, CloseRes.pendingClose)

/-- The value a throwing accessor raises. -/
inductive Thrown where
  | noRowLoaded : Thrown
  | notReadyRows : Thrown
  | notReadyResult : Thrown
  | rowsNotExec : Thrown
  | raised : Option QErr → Thrown
deriving DecidableEq, Repr

/-- The getter `columns`: the field-name list, or a throw: the stored ready-phase
error (`throw this.#err`, possibly `null`) once ready, the `NotReady` error
(`Rows object not ready yet. Await ready()`) before that. -/
def columns (s : QueryState) : Except Thrown (List String) :=
  match s.fieldNames with
  | none =>
    if s.ready then Except.error (Thrown.raised s.err)
    else Except.error Thrown.notReadyRows
  | some names => Except.ok names

/-- The getter `columnTypes`: like `columns` for the decoded metadata. -/
def columnTypes (s : QueryState) : Except Thrown (List ColumnInfo) :=
  match s.columnsInfo with
  | none =>
    if s.ready then Except.error (Thrown.raised s.err)
    else Except.error Thrown.notReadyRows
  | some cols => Except.ok cols

/-- The method `result()`: the exec packet, or the corresponding throw. -/
def resultGet (s : QueryState) : Except Thrown PlainObject :=
  match s.result with
  | none =>
    if s.ready then
      if s.isExec then Except.error (Thrown.raised s.err)
      else Except.error Thrown.rowsNotExec
    else Except.error Thrown.notReadyResult
  | some r => Except.ok r

end MySQLQuery

/-! ### Event traces

A driver/caller event sequence consumed by one `MySQLQuery`.  `next` and
`cancel` are the caller-side entries; the rest are driver events. -/

/-- One event consumed by the query object. -/
inductive Ev where
  | fields : Option (List ColumnDefinition) → Ev
  | result : PlainObject → Ev
  | endEv : Ev
  | error : QErr → Ev
  | next : Ev
  | cancel : Ev

/-- The state change and actions of one event. -/
def stepEv (s : QueryState) : Ev → QueryState × List Act
  | Ev.fields fs => MySQLQuery.onFields s fs
  | Ev.result r => MySQLQuery.pushRow s r
  | Ev.endEv => MySQLQuery.endEvt s
  | Ev.error e => MySQLQuery.errorEvt s e
  | Ev.next => ((MySQLQuery.next s).1, (MySQLQuery.next s).2.1)
  | Ev.cancel => MySQLQuery.cancel s

/-- Run a trace from a state. -/
def runTrace (s : QueryState) : List Ev → QueryState
  | [] => s
  | e :: rest => runTrace (stepEv s e).1 rest

/-- A `result` event may only be delivered while the wire is not paused;
every other event is always allowed. -/
def evAllowed (s : QueryState) : Ev → Bool
  | Ev.result _ => !s.paused
  | _ => true

/-- A driver honours backpressure: no `result` event is delivered while the
wire connection is paused. -/
def pauseRespecting (s : QueryState) : List Ev → Bool
  | [] => true
  | e :: rest => evAllowed s e && pauseRespecting (stepEv s e).1 rest

/-- Number of `pause()` calls in an action list. -/
def pauseCount (acts : List Act) : Nat := acts.count Act.pause

/-- Number of `resume()` calls in an action list. -/
def resumeCount (acts : List Act) : Nat := acts.count Act.resume

/-- Number of `release()` calls on the wire connection of the query. -/
def releaseCount (acts : List Act) : Nat := acts.count Act.wireRelease

/-! ### `usePoolConnection` (src/src/mysql-util.ts)

```
const con = await getPoolConnection(ctx, pool);
try {
  await cb(con);
} finally {
  con.release();
}
```

Once a connection has been leased, the callback runs and the `finally`
releases the connection exactly once, whether the callback returned or threw.
We model the wire actions of a call whose callback performed `cbActs`. -/
def usePoolConnection (cbActs : List Act) : List Act :=
  cbActs ++ [Act.wireRelease]

/-! ### `MySQLPool` (src/src/mysql-pool.ts) -/

/-- The mutable state of a `MySQLPool`. -/
structure PoolState where
  closed : Bool := false
deriving DecidableEq, Repr

/-- Pool-level side effects. -/
inductive PoolAct where
  | endPool : PoolAct
deriving DecidableEq, Repr

namespace MySQLPool

/-- The method `close()`: resolve immediately when already closed, else mark closed and
end the wire pool. -/
def close (s : PoolState) : PoolState × List PoolAct :=
  if s.closed then (s, [])
  else ({ s with closed := true }, [PoolAct.endPool])

end MySQLPool

/-! ### `getPoolConnection_Cancelable` (src/src/mysql-util.ts) -/

/-- How the returned promise was settled (first settlement wins). -/
inductive AcqSettle where
  | ok : Nat → AcqSettle
  | err : String → AcqSettle
  | canceled : AcqSettle
deriving DecidableEq, Repr

/-- State of one `getPoolConnection_Cancelable` call.  Connections are
numbered; `released` records `con.release()` calls; `thrown` records a
runtime `TypeError` (the late error-outcome callback dereferences the
`undefined` connection). -/
structure AcqState where
  timedOut : Bool := false
  resolved : Bool := false
  settled : Option AcqSettle := none
  released : List Nat := []
  handlerOn : Bool := true
  thrown : Option JsErr := none
deriving DecidableEq, Repr

/-- Settle the promise, keeping the first settlement (promise semantics). -/
def acqSettle (s : AcqState) (o : AcqSettle) : AcqState :=
  if s.settled.isSome then s else { s with settled := some o }

/-- External events: the cancel signal firing, or the pool invoking the
`getConnection` callback with an error or a connection. -/
inductive AcqEv where
  | cancelFire : AcqEv
  | poolCb : Except String Nat → AcqEv

/-- One event of `getPoolConnection_Cancelable`:

* `handle.onCancel`: detach, return if already resolved, else set `timedOut`
  and reject with the `Canceled` error;
* the `pool.getConnection` callback: when `timedOut`, release the connection
  back to the pool and return (`con.release()` throws a `TypeError` when the
  callback reported an error, since `con` is then `undefined`); otherwise mark
  resolved, detach the cancel handler, and settle with the error or the
  connection. -/
def acqStep (s : AcqState) : AcqEv → AcqState
  | AcqEv.cancelFire =>
    let s := { s with handlerOn := false }
    if s.resolved then s
    else acqSettle { s with timedOut := true } AcqSettle.canceled
  | AcqEv.poolCb res =>
    if s.timedOut then
      match res with
      | Except.ok c => { s with released := s.released ++ [c] }
      | Except.error _ => { s with thrown := some JsErr.typeError }
    else
      let s := { s with resolved := true, handlerOn := false }
      match res with
      | Except.error e => acqSettle s (AcqSettle.err e)
      | Except.ok c => acqSettle s (AcqSettle.ok c)

/-- Run an acquire-event schedule. -/
def runAcq (evs : List AcqEv) : AcqState :=
  evs.foldl acqStep {}

/-! ### `MySQLTxn.begin` (src/unnamed/part_002)

The isolation-level tokens come from the external `@sabl/txn` package; the
adapter recognises the five named ones and rejects everything else via the
`default` switch arm.  `snapshot` and `chaos` stand for the tokens outside the
recognised set. -/

/-- Isolation-level tokens (`IsolationLevel` of `@sabl/txn`). -/
inductive IsolationLevel where
  | default : IsolationLevel
  | repeatableRead : IsolationLevel
  | readCommitted : IsolationLevel
  | readUncommitted : IsolationLevel
  | serializable : IsolationLevel
  | snapshot : IsolationLevel
  | chaos : IsolationLevel
deriving DecidableEq, Repr

/-- The options record `TxnOptions`: both fields optional, as in `@sabl/txn`. -/
structure TxnOptions where
  isolationLevel : Option IsolationLevel := none
  readOnly : Option Bool := none

/-- Transaction-level state. -/
structure TxnState where
  keepOpen : Bool
  ready : Bool := false
  closed : Bool := false
deriving DecidableEq, Repr

/-- Side effects of `begin`: SQL executed on the bound connection, and the
connection close on the failure path. -/
inductive TxnAct where
  | execSql : String → TxnAct
  | closeCon : TxnAct
deriving DecidableEq, Repr

/-- The error `begin` returns as a value. -/
inductive TxnErr where
  | unsupportedIsolation : TxnErr
deriving DecidableEq, Repr

namespace MySQLTxn

/-- The `switch` mapping an isolation token to its SQL keyword; `none` is the
`default` arm, which throws the Unsupported isolation level error. -/
def levelSql : Option IsolationLevel → Option String
  | some IsolationLevel.default => some "REPEATABLE READ"
  | some IsolationLevel.repeatableRead => some "REPEATABLE READ"
  | some IsolationLevel.readCommitted => some "READ COMMITTED"
  | some IsolationLevel.readUncommitted => some "READ UNCOMMITTED"
  | some IsolationLevel.serializable => some "SERIALIZABLE"
  | _ => none

/-- The method `begin(ctx, opts)`: default the options, map the isolation level (an
unrecognised token throws, caught by the wrapper, which closes the connection
when `keepOpen=false` and returns the error as a value), then exec the
`SET TRANSACTION ISOLATION LEVEL` and `START TRANSACTION` statements.  The
two `con.exec` calls are modelled as succeeding; their own failure path is
outside the claims. -/
def begin (s : TxnState) (opts : Option TxnOptions) :
    TxnState × List TxnAct × Option TxnErr :=
  let opts := opts.getD
    { isolationLevel := some IsolationLevel.default, readOnly := some false }
  match levelSql opts.isolationLevel with
  | none =>
    (s, if s.keepOpen then [] else [TxnAct.closeCon],
     some TxnErr.unsupportedIsolation)
  | some lvl =>
    let rwMode := if opts.readOnly = some true then "READ ONLY" else "READ WRITE"
    ({ s with ready := true },
     [TxnAct.execSql ("SET TRANSACTION ISOLATION LEVEL " ++ lvl),
      TxnAct.execSql ("START TRANSACTION " ++ rwMode)],
     none)

end MySQLTxn

/-! ### JS string-to-number coercion

The property dispatch of `ObjectRow` computes `const ix = +p` and branches on
`isNaN(ix)`.  We model JS `ToNumber` on strings: the NaN-vs-number decision
follows the `StringNumericLiteral` grammar exactly; numeric values are
computed as exact rationals, classified by whether they are a nonnegative
integer `n` (in which case `cols[ix]` can hit element `n`) or not (in which
case `cols[ix]` is `undefined`).  IEEE rounding of non-integer literals is
not modelled; no theorem below depends on such keys. -/

/-- The characters `ToNumber` trims (JS WhiteSpace and LineTerminator),
identified by code point. -/
def jsIsSpace (c : Char) : Bool :=
  c.toNat = 0x20 || c.toNat = 0x09 || c.toNat = 0x0a || c.toNat = 0x0d ||
  c.toNat = 0x0b || c.toNat = 0x0c || c.toNat = 0xa0 || c.toNat = 0xfeff ||
  c.toNat = 0x1680 || (0x2000 ≤ c.toNat && c.toNat ≤ 0x200a) ||
  c.toNat = 0x2028 || c.toNat = 0x2029 || c.toNat = 0x202f ||
  c.toNat = 0x205f || c.toNat = 0x3000

/-- ASCII decimal digit (`'0' ≤ c && c ≤ '9'`, by code point). -/
def isDigitChar (c : Char) : Bool := 48 ≤ c.toNat && c.toNat ≤ 57

/-- Value of an ASCII decimal digit. -/
def digitVal (c : Char) : Nat := c.toNat - 48

/-- Big-endian digit-list value. -/
def digitsToNat (cs : List Char) : Nat :=
  cs.foldl (fun a c => a * 10 + digitVal c) 0

/-- Hexadecimal digit. -/
def isHexDigitChar (c : Char) : Bool :=
  isDigitChar c || (97 ≤ c.toNat && c.toNat ≤ 102) ||
  (65 ≤ c.toNat && c.toNat ≤ 70)

/-- Value of a hexadecimal digit. -/
def hexVal (c : Char) : Nat :=
  if isDigitChar c then digitVal c
  else if 97 ≤ c.toNat && c.toNat ≤ 102 then c.toNat - 87
  else c.toNat - 55

/-- Exact value of an unsigned numeric literal. -/
inductive NumVal where
  | int : Nat → NumVal
  | nonInt : NumVal
deriving DecidableEq, Repr

/-- Parse an optional exponent part that must consume the whole rest:
`[]` means exponent `0`; otherwise `e`/`E`, an optional sign, and digits. -/
def parseExpOpt : List Char → Option Int
  | [] => some 0
  | e :: rest =>
    if e = 'e' || e = 'E' then
      let (neg, ds) :=
        match rest with
        | '+' :: ds => (false, ds)
        | '-' :: ds => (true, ds)
        | ds => (false, ds)
      if ds.isEmpty || !ds.all isDigitChar then none
      else some (if neg then -(digitsToNat ds : Int) else (digitsToNat ds : Int))
    else none

/-- The exact value `mantissaDigits × 10 ^ (exp − #fracDigits)`, classified
as a nonnegative integer or not. -/
def mkDecVal (ipart frac : List Char) (e : Int) : NumVal :=
  let M := digitsToNat (ipart ++ frac)
  let d := (frac.length : Int) - e
  if d ≤ 0 then NumVal.int (M * 10 ^ (-d).toNat)
  else if 10 ^ d.toNat ∣ M then NumVal.int (M / 10 ^ d.toNat)
  else NumVal.nonInt

/-- Parse an unsigned `StrDecimalLiteral` (or `Infinity`) consuming the whole
input: `digits ['.' digits*] [exp]`, `'.' digits+ [exp]`, or `Infinity`. -/
def parseDecOrInf (cs : List Char) : Option NumVal :=
  if cs = "Infinity".data then some NumVal.nonInt
  else
    let ipart := cs.takeWhile isDigitChar
    let rest := cs.dropWhile isDigitChar
    if ipart.isEmpty then
      match rest with
      | '.' :: r2 =>
        let frac := r2.takeWhile isDigitChar
        let r3 := r2.dropWhile isDigitChar
        if frac.isEmpty then none
        else (parseExpOpt r3).map (mkDecVal [] frac)
      | _ => none
    else
      match rest with
      | [] => some (NumVal.int (digitsToNat ipart))
      | '.' :: r2 =>
        let frac := r2.takeWhile isDigitChar
        let r3 := r2.dropWhile isDigitChar
        (parseExpOpt r3).map (mkDecVal ipart frac)
      | r3 => (parseExpOpt r3).map (mkDecVal ipart [])

/-- Parse a `0x`/`0o`/`0b` integer literal consuming the whole input. -/
def parseRadix : List Char → Option Nat
  | z :: x :: ds =>
    if z ≠ '0' then none
    else if x = 'x' || x = 'X' then
      if !ds.isEmpty && ds.all isHexDigitChar then
        some (ds.foldl (fun a c => a * 16 + hexVal c) 0)
      else none
    else if x = 'o' || x = 'O' then
      if !ds.isEmpty && ds.all (fun c => '0' ≤ c && c ≤ '7') then
        some (ds.foldl (fun a c => a * 8 + digitVal c) 0)
      else none
    else if x = 'b' || x = 'B' then
      if !ds.isEmpty && ds.all (fun c => c = '0' || c = '1') then
        some (ds.foldl (fun a c => a * 2 + digitVal c) 0)
      else none
    else none
  | _ => none

/-- Result of `+p` on a string key, as far as array indexing can observe it:
`NaN`, a number that is the canonical index `n`, or a number indexing no
element (negative, fractional, infinite, or beyond any array). -/
inductive JSNum where
  | nan : JSNum
  | idx : Nat → JSNum
  | nonIdx : JSNum
deriving DecidableEq, Repr

/-- Classify an unsigned parse result. -/
def numOfUnsigned : NumVal → JSNum
  | NumVal.int n => JSNum.idx n
  | NumVal.nonInt => JSNum.nonIdx

/-- JS `+p` for a string `p`. -/
def jsPlus (p : String) : JSNum :=
  match ((p.data.dropWhile jsIsSpace).reverse.dropWhile jsIsSpace).reverse with
  | [] => JSNum.idx 0
  | c :: rest =>
    if c = '+' then
      match parseDecOrInf rest with
      | some v => numOfUnsigned v
      | none => JSNum.nan
    else if c = '-' then
      match parseDecOrInf rest with
      | some (NumVal.int 0) => JSNum.idx 0
      | some _ => JSNum.nonIdx
      | none => JSNum.nan
    else
      match parseRadix (c :: rest) with
      | some n => JSNum.idx n
      | none =>
        match parseDecOrInf (c :: rest) with
        | some v => numOfUnsigned v
        | none => JSNum.nan

/-- The decimal digit characters of `n`, with enough fuel (any
`fuel > n` suffices; structural recursion keeps the function computable by
the kernel). -/
def jsNumCharsAux : Nat → Nat → List Char
  | 0, _ => []
  | fuel + 1, n =>
    if n < 10 then [Char.ofNat (48 + n)]
    else jsNumCharsAux fuel (n / 10) ++ [Char.ofNat (48 + n % 10)]

/-- JS `String(n)` for a nonnegative integer: canonical decimal digits. -/
def jsNumToString (n : Nat) : String :=
  ⟨jsNumCharsAux (n + 1) n⟩

/-! ### `ObjectRow` (src/unnamed/part_001) -/

/-- What the proxy `get` trap returns: one of the two bound methods, or a
property value. -/
inductive GetColRes where
  | toObjectFn : GetColRes
  | toArrayFn : GetColRes
  | val : JSVal → GetColRes

/-- The proxy trap `ObjectRow.#getCol(target, p)` for a string key `p`:

* `toObject` / `toArray` return the bound helper functions;
* when `+p` is not NaN, look up `target[COLS][ix]` (which is `undefined` when
  `ix` hits no element, and property keys are coerced to the string
  `"undefined"` in the following data lookup) and return `target[DATA][pname]`;
* otherwise return `target[DATA][p]`. -/
def getCol (data : PlainObject) (cols : List String) (p : String) : GetColRes :=
  if p = "toObject" then GetColRes.toObjectFn
  else if p = "toArray" then GetColRes.toArrayFn
  else
    match jsPlus p with
    | JSNum.nan => GetColRes.val (objGet data p)
    | JSNum.idx n =>
      GetColRes.val (objGet data ((cols.get? n).getD "undefined"))
    | JSNum.nonIdx => GetColRes.val (objGet data "undefined")

/-- The helper `toArray(r)`: the values of `r[DATA]` projected along `r[COLS]`. -/
def rowToArray (data : PlainObject) (cols : List String) : List JSVal :=
  cols.map (objGet data)

/-! #### A small object store, for the `toObject` independence property

`Object.assign({}, data)` allocates a fresh object; mutating it must not be
visible through the row.  Objects live in a store indexed by references. -/

/-- A store of allocated plain objects. -/
abbrev Store := List PlainObject

/-- Allocate a new object, returning its reference. -/
def allocObj (st : Store) (o : PlainObject) : Store × Nat :=
  (st ++ [o], st.length)

/-- Dereference. -/
def derefObj (st : Store) (r : Nat) : PlainObject :=
  (st.get? r).getD []

/-- Set property `k` of an object value. -/
def updateProp (o : PlainObject) (k : String) (v : JSVal) : PlainObject :=
  if (o.lookup k).isSome then
    o.map (fun kv => if kv.1 = k then (k, v) else kv)
  else o ++ [(k, v)]

/-- Mutate property `k` of the object behind reference `r`. -/
def setPropRef (st : Store) (r : Nat) (k : String) (v : JSVal) : Store :=
  st.set r (updateProp (derefObj st r) k v)

/-- The helper `toObject(r)`, that is `Object.assign` of `r[DATA]` onto a fresh
object: allocate a shallow copy of
the data object. -/
def rowToObject (st : Store) (dataRef : Nat) : Store × Nat :=
  allocObj st (derefObj st dataRef)

/-- Row reads through the store: `#getCol` against the object behind
`dataRef`. -/
def getColRef (st : Store) (dataRef : Nat) (cols : List String) (p : String) :
    GetColRes :=
  getCol (derefObj st dataRef) cols p

/-! ## Spec-side reference definitions and claim scenarios -/

/-- The description in the spec of how one parameter is handed to the driver: a
value whose `name` property is not undefined is replaced by its `value`
property; every other value is passed through unchanged.  (Only objects can
carry a non-undefined `name` property.)  Stated from the words of the spec, to be
compared with `flattenParams`. -/
def specFlattenParam (v : JSVal) : JSVal :=
  match v with
  | JSVal.object ps =>
    if (objGet ps "name").isUndefined then v else objGet ps "value"
  | _ => v

/-- The five permitted isolation-level tokens of the claim. -/
def permittedLevel : IsolationLevel → Bool
  | IsolationLevel.default => true
  | IsolationLevel.repeatableRead => true
  | IsolationLevel.readCommitted => true
  | IsolationLevel.readUncommitted => true
  | IsolationLevel.serializable => true
  | _ => false

/-- The isolation-level mapping of the spec (§6), stated from its words for
comparison with the code; the value on non-permitted tokens is irrelevant. -/
def specLevelSql : IsolationLevel → String
  | IsolationLevel.default => "REPEATABLE READ"
  | IsolationLevel.repeatableRead => "REPEATABLE READ"
  | IsolationLevel.readCommitted => "READ COMMITTED"
  | IsolationLevel.readUncommitted => "READ UNCOMMITTED"
  | IsolationLevel.serializable => "SERIALIZABLE"
  | _ => ""

/-- The state of a query whose caller called `next()` (now pending) and whose
context was then canceled, before any driver event. -/
def c3state : QueryState := runTrace (initState true) [Ev.next, Ev.cancel]

/-- The event trace of an exec statement: a null field list, then the exec
result packet. -/
def execTrace : List Ev :=
  [Ev.fields none, Ev.result [("affectedRows", JSVal.number 1)]]

/-- The stream state at the moment the `finally` of `Pool.queryRow` calls
`rows.close()` in this execution: the field packet arrived (readiness), a
caller `next()` parked a waiter, the first row resolved it `true`, and no
further driver event (more rows, `end`) has been delivered yet.  The stream
is a `keepOpen=false` single-shot lease. -/
def c4state : QueryState :=
  runTrace (initState false)
    [Ev.fields (some [⟨"x"⟩]), Ev.next, Ev.result [("x", JSVal.number 1)]]

/-- The backpressure invariant: at most `highWater` rows are buffered, and
strictly fewer whenever the wire is not paused. -/
def bufBounded (s : QueryState) : Prop :=
  s.buf.length ≤ highWater ∧
  (s.paused = false → s.buf.length + 1 ≤ highWater)

/-! ## Theorems -/

/-! ### C9 — parameter flattening -/

/-- C9 (counterexample): the claim extends pass-through to parameter lists
containing `null`, but the loop reads `.name` of every entry unconditionally,
so a `null` parameter raises a `TypeError` instead of being passed through. -/
theorem c9_null_param_counterexample :
    flattenParams [JSVal.null] = Except.error JsErr.typeError ∧
    flattenParams [JSVal.null] ≠ Except.ok [JSVal.null] := by
  refine ⟨rfl, ?_⟩
  intro h
  rw [show flattenParams [JSVal.null] = Except.error JsErr.typeError from rfl] at h
  exact Except.noConfusion h

/-- C9 (amended): for every parameter list without `null`/`undefined`
entries, the `inputs` array handed to the driver is the positional image of
the list under the named-pair flattening of the spec — in particular it has the
same length and order, named `⟨name, value⟩` pairs are replaced by their
`value`, and everything else (numbers, strings, booleans, plain objects
without a `name` property) is passed through unchanged. -/
theorem c9_named_params_flattened (params : List JSVal)
    (h : ∀ v ∈ params, v ≠ JSVal.null ∧ v ≠ JSVal.undefined) :
    flattenParams params = Except.ok (params.map specFlattenParam) ∧
    (params.map specFlattenParam).length = params.length := by
  refine ⟨?_, params.length_map specFlattenParam⟩
  induction params with
  | nil => rfl
  | cons v rest ih =>
    have hv := h v (List.mem_cons_self v rest)
    have ihr := ih fun w hw => h w (List.mem_cons_of_mem v hw)
    cases v with
    | null => exact absurd rfl hv.1
    | undefined => exact absurd rfl hv.2
    | boolean b =>
      simp [flattenParams, JSVal.getProp, JSVal.isUndefined, ihr, specFlattenParam]
    | number n =>
      simp [flattenParams, JSVal.getProp, JSVal.isUndefined, ihr, specFlattenParam]
    | string str =>
      simp [flattenParams, JSVal.getProp, JSVal.isUndefined, ihr, specFlattenParam]
    | object ps =>
      by_cases hnm : (objGet ps "name").isUndefined = true
      · simp [flattenParams, JSVal.getProp, hnm, ihr, specFlattenParam]
      · simp [flattenParams, JSVal.getProp, hnm, ihr, specFlattenParam]

/-- C9 (witness): a concrete mixed parameter list — a raw number, a named
pair, and a plain object without `name` — flattens to the expected array. -/
theorem c9_named_params_flattened_witness :
    flattenParams
      [JSVal.number 1,
       JSVal.object [("name", JSVal.string "a"), ("value", JSVal.number 5)],
       JSVal.object [("x", JSVal.number 9)]] =
      Except.ok
        [JSVal.number 1, JSVal.number 5, JSVal.object [("x", JSVal.number 9)]] := by
  have happ := c9_named_params_flattened
    [JSVal.number 1,
     JSVal.object [("name", JSVal.string "a"), ("value", JSVal.number 5)],
     JSVal.object [("x", JSVal.number 9)]]
    (by
      intro v hv
      simp only [List.mem_cons, List.mem_singleton] at hv
      rcases hv with rfl | rfl | rfl | h
      · exact ⟨fun h => JSVal.noConfusion h, fun h => JSVal.noConfusion h⟩
      · exact ⟨fun h => JSVal.noConfusion h, fun h => JSVal.noConfusion h⟩
      · exact ⟨fun h => JSVal.noConfusion h, fun h => JSVal.noConfusion h⟩
      · exact absurd h (List.not_mem_nil v))
  exact happ.1.trans (by rfl)

/-! ### C7 — isolation level mapping in `MySQLTxn.begin` -/

/-- C7: for every permitted isolation-level token, `begin` execs exactly
`SET TRANSACTION ISOLATION LEVEL <level>` with the mapping of the spec, followed by
`START TRANSACTION READ ONLY` or `READ WRITE` according to `opts.readOnly`;
any other token makes `begin` return the `Unsupported` error as a value
without executing either statement. -/
theorem c7_begin_isolation_mapping (s : TxnState) (ro : Option Bool)
    (lvl : IsolationLevel) :
    (permittedLevel lvl = true →
      MySQLTxn.begin s (some { isolationLevel := some lvl, readOnly := ro }) =
        ({ s with ready := true },
         [TxnAct.execSql ("SET TRANSACTION ISOLATION LEVEL " ++ specLevelSql lvl),
          TxnAct.execSql ("START TRANSACTION " ++
            (if ro = some true then "READ ONLY" else "READ WRITE"))],
         none)) ∧
    (permittedLevel lvl = false →
      MySQLTxn.begin s (some { isolationLevel := some lvl, readOnly := ro }) =
        (s, if s.keepOpen then [] else [TxnAct.closeCon],
         some TxnErr.unsupportedIsolation)) := by
  cases lvl <;>
    simp [MySQLTxn.begin, MySQLTxn.levelSql, permittedLevel, specLevelSql]

/-- C7 (witness): `readCommitted` read-only transactions and the rejected
`snapshot` token, on a `keepOpen=false` transaction state. -/
theorem c7_begin_isolation_mapping_witness :
    MySQLTxn.begin { keepOpen := false }
        (some { isolationLevel := some IsolationLevel.readCommitted,
                readOnly := some true }) =
      ({ keepOpen := false, ready := true },
       [TxnAct.execSql "SET TRANSACTION ISOLATION LEVEL READ COMMITTED",
        TxnAct.execSql "START TRANSACTION READ ONLY"],
       none) ∧
    MySQLTxn.begin { keepOpen := false }
        (some { isolationLevel := some IsolationLevel.snapshot,
                readOnly := some false }) =
      ({ keepOpen := false }, [TxnAct.closeCon],
       some TxnErr.unsupportedIsolation) := by
  constructor
  · exact ((c7_begin_isolation_mapping { keepOpen := false } (some true)
      IsolationLevel.readCommitted).1 rfl).trans (by rfl)
  · exact ((c7_begin_isolation_mapping { keepOpen := false } (some false)
      IsolationLevel.snapshot).2 rfl).trans (by rfl)

/-! ### C8 — cancelable pool acquire -/

/-- C8: when the cancel signal fires before the pool delivers, the acquire
settles with the `Canceled` rejection; a late pool callback delivering a
connection releases exactly that connection back to the pool immediately, and
a late callback reporting an error delivers no connection, so in either
outcome no connection is leaked. -/
theorem c8_cancel_before_delivery (res : Except String Nat) :
    (runAcq [AcqEv.cancelFire, AcqEv.poolCb res]).settled =
      some AcqSettle.canceled ∧
    (∀ c, res = Except.ok c →
      (runAcq [AcqEv.cancelFire, AcqEv.poolCb res]).released = [c]) ∧
    (∀ e, res = Except.error e →
      (runAcq [AcqEv.cancelFire, AcqEv.poolCb res]).released = []) := by
  cases res with
  | ok c =>
    refine ⟨rfl, ?_, ?_⟩
    · intro c' hc
      cases hc
      rfl
    · intro e he
      exact Except.noConfusion he
  | error e =>
    refine ⟨rfl, ?_, ?_⟩
    · intro c hc
      exact Except.noConfusion hc
    · intro e' he
      cases he
      rfl

/-- C8 (witness): cancel fires, then the pool delivers connection `5`: the
acquire was rejected as canceled and connection `5` went straight back. -/
theorem c8_cancel_before_delivery_witness :
    (runAcq [AcqEv.cancelFire, AcqEv.poolCb (Except.ok 5)]).released = [5] :=
  (c8_cancel_before_delivery (Except.ok 5)).2.1 5 rfl

/-! ### C5 — idempotent `close()` -/

/-- C5: `close()` on a `MySQLQuery` whose stream is done is a no-op that
settles immediately — no cancel, no wire action, no state change — and
running it twice equals running it once; `MySQLPool.close` marks the pool
closed, a close on an already-closed pool does nothing, and the second of two
consecutive closes is always a no-op. -/
theorem c5_close_idempotent (s : QueryState) (p : PoolState)
    (hdone : s.done = true) :
    MySQLQuery.close s = (s, [], MySQLQuery.CloseRes.immediate) ∧
    MySQLQuery.close (MySQLQuery.close s).1 =
      (s, [], MySQLQuery.CloseRes.immediate) ∧
    (MySQLPool.close p).1.closed = true ∧
    (p.closed = true → MySQLPool.close p = (p, [])) ∧
    MySQLPool.close (MySQLPool.close p).1 = ((MySQLPool.close p).1, []) := by
  have hq : MySQLQuery.close s = (s, [], MySQLQuery.CloseRes.immediate) := by
    simp [MySQLQuery.close, hdone]
  refine ⟨hq, by rw [hq]; exact hq, ?_, ?_, ?_⟩
  · by_cases hc : p.closed = true <;> simp [MySQLPool.close, hc]
  · intro hc
    simp [MySQLPool.close, hc]
  · by_cases hc : p.closed = true <;> simp [MySQLPool.close, hc]

/-- C5 (witness): a done stream state and a fresh pool. -/
theorem c5_close_idempotent_witness :
    MySQLQuery.close { keepOpen := false, done := true } =
      ({ keepOpen := false, done := true }, [], MySQLQuery.CloseRes.immediate) ∧
    MySQLPool.close (MySQLPool.close {}).1 = ((MySQLPool.close {}).1, []) := by
  have h := c5_close_idempotent { keepOpen := false, done := true } {} rfl
  exact ⟨h.1, h.2.2.2.2⟩

/-! ### C2 — cancellation converts `ER_QUERY_INTERRUPTED` into a clean end -/

/-- C2: in any state where a `next()` waiter is pending and cancellation has
been observed (`canceling=true`), the driver raising `ER_QUERY_INTERRUPTED`
makes the error handler run the end transition: the pending `next()` resolves
`false`, no awaiter is rejected, the stream is done — and any `result` event
arriving while canceling is discarded without effect. -/
theorem c2_cancel_interrupted_resolves_false (s : QueryState)
    (hc : s.canceling = true) (hw : s.waitNext = true) :
    Act.resolveNext false ∈ (MySQLQuery.errorEvt s ⟨"ER_QUERY_INTERRUPTED"⟩).2 ∧
    (∀ e, Act.rejectNext e ∉ (MySQLQuery.errorEvt s ⟨"ER_QUERY_INTERRUPTED"⟩).2) ∧
    (MySQLQuery.errorEvt s ⟨"ER_QUERY_INTERRUPTED"⟩).1.done = true ∧
    (∀ (s2 : QueryState) (pkt : PlainObject), s2.canceling = true →
      MySQLQuery.pushRow s2 pkt = (s2, [])) := by
  refine ⟨?_, ?_, ?_, fun s2 pkt h2 => by simp [MySQLQuery.pushRow, h2]⟩ <;>
    by_cases hr : s.ready = true <;> by_cases hwr : s.waitReady = true <;>
    simp [MySQLQuery.errorEvt, MySQLQuery.resolveReadyH, MySQLQuery.endEvt,
      MySQLQuery.resolveNextH, hc, hw, hr, hwr]

/-- C2 (witness): a query waiting on `next()` after `fields`, canceled, then
interrupted by the driver. -/
theorem c2_cancel_interrupted_resolves_false_witness :
    Act.resolveNext false ∈
      (MySQLQuery.errorEvt
        (runTrace (initState true)
          [Ev.fields (some [⟨"x"⟩]), Ev.next, Ev.cancel])
        ⟨"ER_QUERY_INTERRUPTED"⟩).2 :=
  (c2_cancel_interrupted_resolves_false
    (runTrace (initState true) [Ev.fields (some [⟨"x"⟩]), Ev.next, Ev.cancel])
    rfl rfl).1

/-! ### C3 — a stored error is surfaced by `next()` -/

/-- C3 (counterexample): the claim says pending awaiters are rejected at the
time of the error; but when the error is `ER_QUERY_INTERRUPTED` and the query
is canceling, the handler stores the error and then *resolves* the pending
`next()` with `false` — no rejection happens. -/
theorem c3_pending_awaiter_not_rejected_counterexample :
    c3state.waitNext = true ∧ c3state.err = none ∧
    (MySQLQuery.errorEvt c3state ⟨"ER_QUERY_INTERRUPTED"⟩).1.err =
      some ⟨"ER_QUERY_INTERRUPTED"⟩ ∧
    (MySQLQuery.errorEvt c3state ⟨"ER_QUERY_INTERRUPTED"⟩).2 =
      [Act.resolveNext false] ∧
    Act.resolveNext false ≠
      Act.rejectNext ⟨"ER_QUERY_INTERRUPTED"⟩ :=
  ⟨rfl, rfl, rfl, rfl, by decide⟩

/-- C3 (amended): once `err` is set, every `next()` call rejects with the
stored error immediately — the state (buffer, done flag) is not consulted or
changed; a driver error with a pending awaiter rejects that awaiter, *except*
that `ER_QUERY_INTERRUPTED` while canceling resolves it `false` instead. -/
theorem c3_stored_error_rejects_next (s : QueryState) (e : QErr) :
    (s.err = some e →
      MySQLQuery.next s = (s, [], MySQLQuery.NextRes.rejected e)) ∧
    (s.waitNext = true →
      ¬(e.code = "ER_QUERY_INTERRUPTED" ∧ s.canceling = true) →
      (MySQLQuery.errorEvt s e).1.err = some e ∧
      Act.rejectNext e ∈ (MySQLQuery.errorEvt s e).2) ∧
    (s.waitNext = true → e.code = "ER_QUERY_INTERRUPTED" → s.canceling = true →
      Act.resolveNext false ∈ (MySQLQuery.errorEvt s e).2 ∧
      (∀ e2, Act.rejectNext e2 ∉ (MySQLQuery.errorEvt s e).2)) := by
  refine ⟨?_, ?_, ?_⟩
  · intro he
    simp [MySQLQuery.next, he]
  · intro hw hni
    by_cases hr : s.ready = true <;> by_cases hwr : s.waitReady = true <;>
      by_cases hwc : s.waitClose = true <;>
      simp [MySQLQuery.errorEvt, MySQLQuery.resolveReadyH, hw, hni, hr, hwr, hwc]
  · intro hw hcode hc
    refine ⟨?_, ?_⟩ <;>
      by_cases hr : s.ready = true <;> by_cases hwr : s.waitReady = true <;>
      simp [MySQLQuery.errorEvt, MySQLQuery.resolveReadyH, MySQLQuery.endEvt,
        MySQLQuery.resolveNextH, hcode, hc, hw, hr, hwr]

/-- C3 (witness): a state with a stored error rejects `next()` without
touching the non-empty buffer. -/
theorem c3_stored_error_rejects_next_witness :
    MySQLQuery.next
        { keepOpen := true, buf := [[("x", JSVal.number 1)]], done := true,
          err := some ⟨"ER_BOOM"⟩ } =
      ({ keepOpen := true, buf := [[("x", JSVal.number 1)]], done := true,
         err := some ⟨"ER_BOOM"⟩ }, [],
       MySQLQuery.NextRes.rejected ⟨"ER_BOOM"⟩) :=
  (c3_stored_error_rejects_next
    { keepOpen := true, buf := [[("x", JSVal.number 1)]], done := true,
      err := some ⟨"ER_BOOM"⟩ } ⟨"ER_BOOM"⟩).1 rfl

/-! ### C6 — `columns` / `columnTypes` readiness errors -/

/-- C6 (counterexample): for an exec statement that has become ready (the
result packet arrived, `err` is still `null`), `columns` and `columnTypes`
take the `throw this.#err` branch and throw `null` — not a NotReady-style
error, contradicting the final clause of the claim. -/
theorem c6_exec_throws_null_counterexample :
    (runTrace (initState true) execTrace).isExec = true ∧
    (runTrace (initState true) execTrace).ready = true ∧
    (runTrace (initState true) execTrace).err = none ∧
    MySQLQuery.columns (runTrace (initState true) execTrace) =
      Except.error (MySQLQuery.Thrown.raised none) ∧
    MySQLQuery.columnTypes (runTrace (initState true) execTrace) =
      Except.error (MySQLQuery.Thrown.raised none) ∧
    MySQLQuery.Thrown.raised none ≠ MySQLQuery.Thrown.notReadyRows := by
  exact ⟨rfl, rfl, rfl, rfl, rfl, by decide⟩

/-- C6 (amended): before readiness, `columns`/`columnTypes` throw the
NotReady error (`Rows object not ready yet. Await ready()`); once ready with
no field list received they re-throw the stored ready-phase error value —
which is the driver error when one occurred, and `null` for a ready exec
statement (so exec statements raise the NotReady error only until their
result packet arrives). -/
theorem c6_columns_readiness (s : QueryState) :
    (s.fieldNames = none → s.ready = false →
      MySQLQuery.columns s = Except.error MySQLQuery.Thrown.notReadyRows) ∧
    (s.fieldNames = none → s.ready = true →
      MySQLQuery.columns s = Except.error (MySQLQuery.Thrown.raised s.err)) ∧
    (∀ ns, s.fieldNames = some ns → MySQLQuery.columns s = Except.ok ns) ∧
    (s.columnsInfo = none → s.ready = false →
      MySQLQuery.columnTypes s = Except.error MySQLQuery.Thrown.notReadyRows) ∧
    (s.columnsInfo = none → s.ready = true →
      MySQLQuery.columnTypes s = Except.error (MySQLQuery.Thrown.raised s.err)) ∧
    (∀ cs, s.columnsInfo = some cs →
      MySQLQuery.columnTypes s = Except.ok cs) := by
  refine ⟨?_, ?_, ?_, ?_, ?_, ?_⟩ <;>
    first
    | (intro h hr; simp [MySQLQuery.columns, MySQLQuery.columnTypes, h, hr])
    | (intro xs h; simp [MySQLQuery.columns, MySQLQuery.columnTypes, h])

/-- C6 (witness): an exec statement before its result packet — not ready —
raises the NotReady error from `columns`. -/
theorem c6_columns_readiness_witness :
    MySQLQuery.columns (runTrace (initState true) [Ev.fields none]) =
      Except.error MySQLQuery.Thrown.notReadyRows :=
  (c6_columns_readiness (runTrace (initState true) [Ev.fields none])).1 rfl rfl

/-! ### C4 — release accounting for `queryRow` / `exec` leases -/

/-- C4 (counterexample): in the execution above the stream is not done when
`close()` runs, so the `#cancel` path of `close()` releases the `keepOpen=false`
connection via `closeConnection`, and the `finally` of `usePoolConnection`
releases it again: the lease is released twice, not exactly once. -/
theorem c4_double_release_counterexample :
    c4state.done = false ∧
    (MySQLQuery.close c4state).2.1 = [Act.wireRelease] ∧
    releaseCount (usePoolConnection (MySQLQuery.close c4state).2.1) = 2 :=
  ⟨rfl, rfl, rfl⟩

/-- C4 (amended): `usePoolConnection` itself releases the lease exactly once
(its `finally`), on success and on a thrown callback alike, so the lease is
never leaked; `close()` on a `keepOpen=false` stream performs one extra
release exactly when the stream has not reached `done` — hence a
`queryRow`/`exec` call releases its lease exactly once iff the stream was
done when `close()` was entered (exec paths, which do not call `close()` on
success, and fully-terminated streams), and twice when `close()` cancels a
still-streaming `keepOpen=false` stream. -/
theorem c4_release_accounting (cbActs : List Act) (s : QueryState)
    (hk : s.keepOpen = false) :
    releaseCount (usePoolConnection cbActs) = releaseCount cbActs + 1 ∧
    releaseCount (MySQLQuery.close s).2.1 = (if s.done = true then 0 else 1) ∧
    (s.done = true →
      releaseCount (usePoolConnection (MySQLQuery.close s).2.1) = 1) ∧
    (s.done = false →
      releaseCount (usePoolConnection (MySQLQuery.close s).2.1) = 2) ∧
    1 ≤ releaseCount (usePoolConnection (MySQLQuery.close s).2.1) := by
  have hu : ∀ l : List Act,
      releaseCount (usePoolConnection l) = releaseCount l + 1 := by
    intro l
    simp [releaseCount, usePoolConnection]
  have hc : releaseCount (MySQLQuery.close s).2.1 =
      (if s.done = true then 0 else 1) := by
    by_cases hd : s.done = true <;>
      by_cases hp : s.paused = true <;>
      simp [MySQLQuery.close, MySQLQuery.cancel, closeConnection, releaseCount,
        hd, hp, hk]
  refine ⟨hu _, hc, ?_, ?_, ?_⟩
  · intro hd
    rw [hu, hc, if_pos hd]
  · intro hd
    rw [hu, hc, if_neg (by simp [hd])]
  · rw [hu]
    omega

/-- C4 (witness): applying the accounting to the early-close execution: the
lease is released twice there (and hence at least once). -/
theorem c4_release_accounting_witness :
    releaseCount (usePoolConnection (MySQLQuery.close c4state).2.1) = 2 :=
  (c4_release_accounting [] c4state rfl).2.2.2.1 rfl

/-! ### C1 — backpressure bounds the buffer -/

/-- The handler `#onFields` touches neither the buffer nor the paused flag. -/
theorem onFields_buf_paused (s : QueryState)
    (fs : Option (List ColumnDefinition)) :
    (MySQLQuery.onFields s fs).1.buf = s.buf ∧
    (MySQLQuery.onFields s fs).1.paused = s.paused := by
  cases fs with
  | none => simp [MySQLQuery.onFields]
  | some fs =>
    simp only [MySQLQuery.onFields, MySQLQuery.resolveReadyH]
    split_ifs <;> simp

/-- The handler `#end` touches neither the buffer nor the paused flag. -/
theorem endEvt_buf_paused (s : QueryState) :
    (MySQLQuery.endEvt s).1.buf = s.buf ∧
    (MySQLQuery.endEvt s).1.paused = s.paused := by
  simp only [MySQLQuery.endEvt, MySQLQuery.resolveNextH]
  split_ifs <;> simp

/-- The handler `#error` touches neither the buffer nor the paused flag. -/
theorem errorEvt_buf_paused (s : QueryState) (e : QErr) :
    (MySQLQuery.errorEvt s e).1.buf = s.buf ∧
    (MySQLQuery.errorEvt s e).1.paused = s.paused := by
  simp only [MySQLQuery.errorEvt, MySQLQuery.resolveReadyH, MySQLQuery.endEvt,
    MySQLQuery.resolveNextH]
  split_ifs <;> simp

/-- The handler `#cancel` touches neither the buffer nor the paused flag. -/
theorem cancel_buf_paused (s : QueryState) :
    (MySQLQuery.cancel s).1.buf = s.buf ∧
    (MySQLQuery.cancel s).1.paused = s.paused := by
  simp only [MySQLQuery.cancel]
  split_ifs <;> simp

/-- A `result` event delivered while not paused preserves `bufBounded`. -/
theorem bufBounded_pushRow (s : QueryState) (r : PlainObject)
    (hb : bufBounded s) (hp : s.paused = false) :
    bufBounded (MySQLQuery.pushRow s r).1 := by
  rcases hb with ⟨h1, h2⟩
  have h2' := h2 hp
  by_cases hcan : s.canceling = true
  · simpa [MySQLQuery.pushRow, hcan, bufBounded] using ⟨h1, h2⟩
  by_cases hex : s.isExec = true
  · by_cases hrd : s.ready = true <;> by_cases hwr : s.waitReady = true <;>
      by_cases hwn : s.waitNext = true <;>
      simpa [MySQLQuery.pushRow, MySQLQuery.resolveReadyH,
        MySQLQuery.resolveNextH, hcan, hex, hrd, hwr, hwn, bufBounded]
        using ⟨h1, h2⟩
  by_cases hwn : s.waitNext = true
  · by_cases hemp : s.buf.isEmpty = true <;>
      simpa [MySQLQuery.pushRow, MySQLQuery.resolveNextH, hcan, hex, hwn, hemp,
        bufBounded] using ⟨h1, h2⟩
  · by_cases hhw : highWater ≤ s.buf.length + 1
    · have hlen : s.buf.length + 1 = highWater := by omega
      simp [MySQLQuery.pushRow, hcan, hex, hwn, hp, hhw, bufBounded, hlen]
    · simp only [MySQLQuery.pushRow, hcan, hex, hwn, hp, bufBounded,
        Bool.false_eq_true, if_false, List.length_append, List.length_cons,
        List.length_nil]
      rw [if_neg (by simpa using hhw)]
      constructor
      · simp
        omega
      · intro _
        simp
        omega

/-- A `next()` call preserves `bufBounded`. -/
theorem bufBounded_next (s : QueryState) (hb : bufBounded s) :
    bufBounded (MySQLQuery.next s).1 := by
  rcases hb with ⟨h1, h2⟩
  cases herr : s.err with
  | some e => simpa [MySQLQuery.next, herr, bufBounded] using ⟨h1, h2⟩
  | none =>
    cases hbuf : s.buf with
    | nil =>
      by_cases hd : s.done = true
      · simp [MySQLQuery.next, herr, hbuf, hd, bufBounded, highWater]
      by_cases hex : s.isExec = true <;>
        simp [MySQLQuery.next, herr, hbuf, hd, hex, bufBounded, highWater]
    | cons r rest =>
      rw [hbuf] at h1 h2
      simp only [List.length_cons] at h1 h2
      have hres : rest.length + 1 ≤ highWater := h1
      by_cases hcond : s.paused = true ∧ rest.length ≤ resume
      · have hlow := hcond.2
        simp only [resume] at hlow
        simp [MySQLQuery.next, herr, hbuf, hcond, bufBounded, highWater]
        omega
      · simp only [MySQLQuery.next, herr, hbuf, bufBounded]
        rw [if_neg (by simpa using hcond)]
        refine ⟨by simpa using Nat.le_of_succ_le h1, ?_⟩
        intro hpf
        simp only at hpf
        have := h2 hpf
        simpa using Nat.le_of_succ_le this

/-- One step of a pause-respecting trace preserves `bufBounded`. -/
theorem bufBounded_stepEv (s : QueryState) (e : Ev) (hb : bufBounded s)
    (hp : ∀ r, e = Ev.result r → s.paused = false) :
    bufBounded (stepEv s e).1 := by
  cases e with
  | fields fs =>
    have h := onFields_buf_paused s fs
    exact ⟨by rw [show (stepEv s (Ev.fields fs)).1 = (MySQLQuery.onFields s fs).1 from rfl, h.1]; exact hb.1,
      by rw [show (stepEv s (Ev.fields fs)).1 = (MySQLQuery.onFields s fs).1 from rfl, h.1, h.2]; exact hb.2⟩
  | result r => exact bufBounded_pushRow s r hb (hp r rfl)
  | endEv =>
    have h := endEvt_buf_paused s
    exact ⟨by rw [show (stepEv s Ev.endEv).1 = (MySQLQuery.endEvt s).1 from rfl, h.1]; exact hb.1,
      by rw [show (stepEv s Ev.endEv).1 = (MySQLQuery.endEvt s).1 from rfl, h.1, h.2]; exact hb.2⟩
  | error e =>
    have h := errorEvt_buf_paused s e
    exact ⟨by rw [show (stepEv s (Ev.error e)).1 = (MySQLQuery.errorEvt s e).1 from rfl, h.1]; exact hb.1,
      by rw [show (stepEv s (Ev.error e)).1 = (MySQLQuery.errorEvt s e).1 from rfl, h.1, h.2]; exact hb.2⟩
  | next => exact bufBounded_next s hb
  | cancel =>
    have h := cancel_buf_paused s
    exact ⟨by rw [show (stepEv s Ev.cancel).1 = (MySQLQuery.cancel s).1 from rfl, h.1]; exact hb.1,
      by rw [show (stepEv s Ev.cancel).1 = (MySQLQuery.cancel s).1 from rfl, h.1, h.2]; exact hb.2⟩

/-- A pause-respecting trace preserves `bufBounded` end to end. -/
theorem bufBounded_runTrace (s : QueryState) (tr : List Ev)
    (hb : bufBounded s) (hw : pauseRespecting s tr = true) :
    bufBounded (runTrace s tr) := by
  induction tr generalizing s with
  | nil => exact hb
  | cons e rest ih =>
    rw [pauseRespecting, Bool.and_eq_true] at hw
    refine ih (stepEv s e).1 (bufBounded_stepEv s e hb ?_) hw.2
    intro r hre
    subst hre
    have h1 := hw.1
    simp only [evAllowed, Bool.not_eq_true'] at h1
    exact h1

/-- C1: for every pause-respecting driver event sequence (the driver delivers
no `result` while the wire is paused — the effect `pause()` is for), the
buffer never exceeds `highWater` (a fortiori never exceeds it by more than one
row).  Moreover, in any state: a pushed row that brings the buffer to the
high-water mark with no waiting reader on an unpaused stream emits exactly one
`pause()` and sets the flag; a push while paused emits no further `pause()`;
a `next()` pop that drains a paused buffer to `resume` (75) or below emits
exactly one `resume()` and clears the flag; and a pop on an unpaused stream
emits no `resume()`. -/
theorem c1_backpressure (ko : Bool) (tr : List Ev)
    (hw : pauseRespecting (initState ko) tr = true) :
    (runTrace (initState ko) tr).buf.length ≤ highWater + 1 ∧
    (∀ (s : QueryState) (pkt : PlainObject),
      s.canceling = false → s.isExec = false → s.waitNext = false →
      (s.paused = false → highWater ≤ s.buf.length + 1 →
        (MySQLQuery.pushRow s pkt).2 = [Act.pause] ∧
        (MySQLQuery.pushRow s pkt).1.paused = true) ∧
      (s.paused = true → pauseCount (MySQLQuery.pushRow s pkt).2 = 0 ∧
        (MySQLQuery.pushRow s pkt).1.paused = true)) ∧
    (∀ (s : QueryState) (r : PlainObject) (rest : List PlainObject),
      s.buf = r :: rest → s.err = none →
      (s.paused = true → rest.length ≤ resume →
        (MySQLQuery.next s).2.1 = [Act.resume] ∧
        (MySQLQuery.next s).1.paused = false) ∧
      (s.paused = false →
        resumeCount (MySQLQuery.next s).2.1 = 0)) := by
  refine ⟨?_, ?_, ?_⟩
  · have hb := bufBounded_runTrace (initState ko) tr
      (by simp [bufBounded, initState, highWater]) hw
    exact Nat.le_succ_of_le hb.1
  · intro s pkt hcan hex hwn
    constructor
    · intro hp hhw
      constructor <;>
        simp [MySQLQuery.pushRow, hcan, hex, hwn, hp, hhw, pauseCount]
    · intro hp
      by_cases hhw : highWater ≤ s.buf.length + 1 <;>
        exact ⟨by simp [MySQLQuery.pushRow, hcan, hex, hwn, hp, hhw, pauseCount],
          by simp [MySQLQuery.pushRow, hcan, hex, hwn, hp, hhw]⟩
  · intro s r rest hbuf herr
    constructor
    · intro hp hlow
      constructor <;>
        simp [MySQLQuery.next, herr, hbuf, hp, hlow, resumeCount]
    · intro hp
      simp [MySQLQuery.next, herr, hbuf, hp, resumeCount]

/-- C1 (witness): a pathological driver that pushes 100 rows before any
`next()`: the trace is pause-respecting (the 100th push pauses the wire) and
the buffer stays within the bound. -/
theorem c1_backpressure_witness :
    (runTrace (initState false)
      (List.replicate 100 (Ev.result []))).buf.length ≤ highWater + 1 :=
  (c1_backpressure false (List.replicate 100 (Ev.result [])) (by decide)).1

/-! ### C10 — the `ObjectRow` view

Supporting facts about the decimal key strings the proxy receives for
ordinal access. -/

/-- Digit characters in the canonical decimal string of `n`. -/
theorem isDigitChar_ofNat (d : Nat) (hd : d < 10) :
    isDigitChar (Char.ofNat (48 + d)) = true := by
  interval_cases d <;> decide

/-- Value of the digit character of `d`. -/
theorem digitVal_ofNat (d : Nat) (hd : d < 10) :
    digitVal (Char.ofNat (48 + d)) = d := by
  interval_cases d <;> decide

/-- Appending one digit multiplies the value by ten and adds the digit. -/
theorem digitsToNat_append_digit (l : List Char) (c : Char) :
    digitsToNat (l ++ [c]) = digitsToNat l * 10 + digitVal c := by
  simp [digitsToNat, List.foldl_append]

/-- With adequate fuel, the decimal string of `n` is a nonempty digit string
whose value is `n`. -/
theorem jsNumCharsAux_spec (fuel n : Nat) (hf : n < fuel) :
    (jsNumCharsAux fuel n).all isDigitChar = true ∧
    jsNumCharsAux fuel n ≠ [] ∧
    digitsToNat (jsNumCharsAux fuel n) = n := by
  induction fuel generalizing n with
  | zero => omega
  | succ fuel ih =>
    rw [jsNumCharsAux]
    by_cases h : n < 10
    · rw [if_pos h]
      refine ⟨?_, by simp, ?_⟩
      · simpa using isDigitChar_ofNat n h
      · simpa [digitsToNat] using digitVal_ofNat n h
    · rw [if_neg h]
      have hih := ih (n / 10) (by omega)
      refine ⟨?_, by simp, ?_⟩
      · rw [List.all_append, hih.1]
        simpa using isDigitChar_ofNat (n % 10) (Nat.mod_lt n (by omega))
      · rw [digitsToNat_append_digit, hih.2.2,
          digitVal_ofNat (n % 10) (Nat.mod_lt n (by omega))]
        omega

/-- With adequate fuel, the decimal string of a positive `n` has no leading
zero. -/
theorem jsNumCharsAux_head_ne_zero (fuel n : Nat) (hf : n < fuel)
    (hn : 1 ≤ n) : (jsNumCharsAux fuel n).head? ≠ some '0' := by
  induction fuel generalizing n with
  | zero => omega
  | succ fuel ih =>
    rw [jsNumCharsAux]
    by_cases h : n < 10
    · rw [if_pos h]
      interval_cases n <;> decide
    · rw [if_neg h]
      have hfd : n / 10 < fuel := by omega
      have hne := (jsNumCharsAux_spec fuel (n / 10) hfd).2.1
      obtain ⟨d, ds, hpre⟩ := List.exists_cons_of_ne_nil hne
      have hih := ih (n / 10) hfd (by omega : 1 ≤ n / 10)
      rw [hpre] at hih ⊢
      simpa using hih

/-- Digit characters are not JS whitespace. -/
theorem digit_not_space (c : Char) (h : isDigitChar c = true) :
    jsIsSpace c = false := by
  simp only [isDigitChar, Bool.and_eq_true, decide_eq_true_eq] at h
  simp only [jsIsSpace, Bool.or_eq_false_iff, Bool.and_eq_false_iff,
    decide_eq_false_iff_not]
  omega

/-- The function `dropWhile jsIsSpace` is the identity on digit strings. -/
theorem all_digits_dropWhile_space (l : List Char)
    (h : l.all isDigitChar = true) : l.dropWhile jsIsSpace = l := by
  cases l with
  | nil => rfl
  | cons c cs =>
    rw [List.all_cons, Bool.and_eq_true] at h
    rw [List.dropWhile_cons, digit_not_space c h.1]
    simp

/-- The `ToNumber` trim is the identity on digit strings. -/
theorem trim_digits (l : List Char) (h : l.all isDigitChar = true) :
    ((l.dropWhile jsIsSpace).reverse.dropWhile jsIsSpace).reverse = l := by
  rw [all_digits_dropWhile_space l h,
    all_digits_dropWhile_space l.reverse (by simpa using h),
    List.reverse_reverse]

/-- The function `takeWhile isDigitChar` is the identity on digit strings. -/
theorem all_digits_takeWhile (l : List Char) (h : l.all isDigitChar = true) :
    l.takeWhile isDigitChar = l := by
  induction l with
  | nil => rfl
  | cons c cs ih =>
    rw [List.all_cons, Bool.and_eq_true] at h
    rw [List.takeWhile_cons, if_pos h.1, ih h.2]

/-- The function `dropWhile isDigitChar` empties digit strings. -/
theorem all_digits_dropWhile (l : List Char) (h : l.all isDigitChar = true) :
    l.dropWhile isDigitChar = [] := by
  induction l with
  | nil => rfl
  | cons c cs ih =>
    rw [List.all_cons, Bool.and_eq_true] at h
    rw [List.dropWhile_cons, h.1, ih h.2]
    simp

/-- A nonempty digit string parses as the decimal integer it denotes. -/
theorem parseDecOrInf_digits (l : List Char) (hne : l ≠ [])
    (h : l.all isDigitChar = true) :
    parseDecOrInf l = some (NumVal.int (digitsToNat l)) := by
  have hInf : ¬(l = "Infinity".data) := by
    intro he
    rw [he] at h
    exact absurd h (by decide)
  rw [parseDecOrInf, if_neg hInf, all_digits_takeWhile l h,
    all_digits_dropWhile l h, if_neg (by simpa using hne)]

/-- The parser `parseRadix` rejects any string that does not start with the
zero digit. -/
theorem parseRadix_head_ne_zero (c : Char) (cs : List Char) (hc : c ≠ '0') :
    parseRadix (c :: cs) = none := by
  cases cs with
  | nil => rfl
  | cons x ds => simp [parseRadix, hc]

/-- JS `+key` on the canonical decimal string of `n` is the number `n`. -/
theorem jsPlus_natKey (n : Nat) : jsPlus (jsNumToString n) = JSNum.idx n := by
  by_cases hsmall : n < 10
  · interval_cases n <;> decide
  · obtain ⟨hall, hne, hval⟩ := jsNumCharsAux_spec (n + 1) n (by omega)
    have hhead := jsNumCharsAux_head_ne_zero (n + 1) n (by omega) (by omega)
    obtain ⟨c, cs, hl⟩ := List.exists_cons_of_ne_nil hne
    have hcdig : isDigitChar c = true := by
      rw [hl, List.all_cons, Bool.and_eq_true] at hall
      exact hall.1
    have hcz : c ≠ '0' := by
      rw [hl] at hhead
      simpa using hhead
    have hplus : c ≠ '+' := by
      intro hcp
      rw [hcp] at hcdig
      exact absurd hcdig (by decide)
    have hminus : c ≠ '-' := by
      intro hcm
      rw [hcm] at hcdig
      exact absurd hcdig (by decide)
    rw [jsPlus]
    rw [show (jsNumToString n).data = jsNumCharsAux (n + 1) n from rfl]
    rw [trim_digits _ hall, hl]
    have hpd : parseDecOrInf (c :: cs) = some (NumVal.int n) := by
      rw [← hl, parseDecOrInf_digits _ hne hall, hval]
    simp only [hplus, hminus, if_false, parseRadix_head_ne_zero c cs hcz, hpd,
      numOfUnsigned]

/-- C10 (counterexample): the claim quantifies over every column list, but
for a column literally named `"1"` the proxy coerces the name to the number
`1`, reads `cols[1]` (undefined) and then `data["undefined"]`: named access
`row["1"]` yields `undefined` while `data["1"]` is the stored value. -/
theorem c10_numeric_column_counterexample :
    objGet [("1", JSVal.number 7)] "1" = JSVal.number 7 ∧
    getCol [("1", JSVal.number 7)] ["1"] "1" = GetColRes.val JSVal.undefined ∧
    JSVal.undefined ≠ JSVal.number 7 :=
  ⟨rfl, rfl, fun h => JSVal.noConfusion h⟩

/-- C10 (amended): for every row view over `(data, cols)` (a JS array, so
fewer than `2^32` columns) and every ordinal `i < cols.length`: ordinal
access `row[i]` and `toArray()[i]` both return `data[cols[i]]`; named access
`row[p]` returns `data[p]` for every key `p` outside the reserved proxy
namespace — not `toObject`/`toArray` and not numerically coercible (`+p` is
NaN), which in particular covers `p = cols[i]` for such column names; and
`toObject()` allocates a shallow copy of `data` whose mutation does not
affect subsequent reads through the row. -/
theorem c10_row_view (data : PlainObject) (cols : List String)
    (hlen : cols.length < 2 ^ 32) (i : Nat) (hi : i < cols.length) :
    getCol data cols (jsNumToString i) =
      GetColRes.val (objGet data (cols.get ⟨i, hi⟩)) ∧
    (rowToArray data cols).get? i = some (objGet data (cols.get ⟨i, hi⟩)) ∧
    (∀ p, jsPlus p = JSNum.nan → p ≠ "toObject" → p ≠ "toArray" →
      getCol data cols p = GetColRes.val (objGet data p)) ∧
    (∀ (st : Store) (dataRef : Nat), dataRef < st.length →
      derefObj st dataRef = data →
      derefObj (rowToObject st dataRef).1 (rowToObject st dataRef).2 = data ∧
      (∀ k v p,
        getColRef (setPropRef (rowToObject st dataRef).1
            (rowToObject st dataRef).2 k v) dataRef cols p =
          getCol data cols p)) := by
  have hnumeric : ∀ s2 : String, s2.data.all isDigitChar = false →
      jsNumToString i ≠ s2 := by
    intro s2 hs2 h
    have hall := (jsNumCharsAux_spec (i + 1) i (by omega)).1
    rw [show jsNumCharsAux (i + 1) i = (jsNumToString i).data from rfl, h,
      hs2] at hall
    exact Bool.noConfusion hall
  refine ⟨?_, ?_, ?_, ?_⟩
  · rw [getCol, if_neg (hnumeric "toObject" (by decide)),
      if_neg (hnumeric "toArray" (by decide)), jsPlus_natKey i]
    simp [List.getElem?_eq_getElem hi]
  · rw [rowToArray, List.get?_eq_getElem?, List.getElem?_map, List.getElem?_eq_getElem hi]
    rfl
  · intro p hnan hp1 hp2
    rw [getCol, if_neg hp1, if_neg hp2, hnan]
  · intro st dataRef hlt hderef
    constructor
    · show derefObj (st ++ [derefObj st dataRef]) st.length = data
      rw [derefObj, List.get?_eq_getElem?, List.getElem?_concat_length]
      simpa using hderef
    · intro k v p
      rw [getColRef]
      suffices hsame :
          derefObj (setPropRef (rowToObject st dataRef).1
            (rowToObject st dataRef).2 k v) dataRef = data by
        rw [hsame]
      show derefObj ((st ++ [derefObj st dataRef]).set st.length _) dataRef
        = data
      rw [derefObj, List.get?_eq_getElem?,
        List.getElem?_set_ne (by omega : st.length ≠ dataRef),
        List.getElem?_append_left hlt]
      rw [derefObj, List.get?_eq_getElem?] at hderef
      exact hderef

/-- C10 (witness): a one-column row over `x`: ordinal access through the key
`"0"` returns the stored value. -/
theorem c10_row_view_witness :
    getCol [("x", JSVal.number 3)] ["x"] (jsNumToString 0) =
      GetColRes.val (JSVal.number 3) :=
  (c10_row_view [("x", JSVal.number 3)] ["x"] (by decide) 0 (by decide)).1

end AdpMySQL
